import Mathlib

/-!
Shallow embedding of the go-calculator repository (src/main.go).

The program manipulates IEEE-754 float64 values.  The embedding is
parametric in the numeric carrier: a `FloatModel α` bundles the primitive
float operations the Go code uses (`+`, `-`, `*`, `/`, `math.Pow`,
`math.Mod`, `math.Sin`, ..., the comparisons `== 0`, `< 0`, `<= 0`, `<`,
the literals `math.Pi`, `math.E`, `180`, `1e-12`, and the numeric value
produced by `strconv.ParseFloat`).  All control flow of the program —
operator dispatch, arity validation, token parsing, operand collection,
the session state machine — is embedded concretely, so every claim about
structure, error conditions and state is settled for every interpretation
of the primitives; concrete instantiations over `Int` (computable, for
evaluation on examples) and over `ℝ` (for the exact trigonometric fact)
are given below.
-/

/-- Errors produced by the program.  Each constructor models one
`errors.New` message in src/main.go:
`divisionByZero` = "division by zero", `moduloByZero` = "modulo by zero",
`tanUndefined` = "tan undefined for this value",
`sqrtNegative` = "sqrt of negative number", `logDomain` = "log domain error",
`unknownOperator` = "unknown operator", `unknownUnary` = "unknown unary operator",
`invalidNumber` = "invalid number", `noPriorResult` = "no previous result",
`emptyInput` = "empty input",
`arityNotOne` = "this operator requires exactly one operand",
`arityTooFew` = "at least two operands required",
`arityNotTwo` = "this operator supports exactly two operands".
`indexOutOfRange` models the Go runtime panic of `nums[0]` on an empty
slice; it is unreachable from the session loop because arity validation
runs before evaluation. -/
inductive CalcErr where
  | divisionByZero
  | moduloByZero
  | tanUndefined
  | sqrtNegative
  | logDomain
  | unknownOperator
  | unknownUnary
  | invalidNumber
  | noPriorResult
  | emptyInput
  | arityNotOne
  | arityTooFew
  | arityNotTwo
  | indexOutOfRange
deriving DecidableEq, Repr

/-- The spec's error taxonomy (spec.md §7): `DivisionByZero`, `DomainError`,
`ArityError`, `InvalidNumber`, `NoPriorResult`, `UnknownOperator`, plus the
"empty input" parse error and the unreachable runtime panic. -/
inductive ErrKind where
  | divisionByZero
  | domainError
  | arityError
  | invalidNumber
  | noPriorResult
  | unknownOperator
  | emptyInput
  | runtimePanic
deriving DecidableEq, Repr

/-- Classification of each concrete program error under the spec's
taxonomy (spec.md §7: "/" and "%" by zero are both `DivisionByZero`;
tan/sqrt/log out-of-domain are `DomainError`; the three arity messages are
`ArityError`). -/
def errKind : CalcErr → ErrKind
  | .divisionByZero => .divisionByZero
  | .moduloByZero => .divisionByZero
  | .tanUndefined => .domainError
  | .sqrtNegative => .domainError
  | .logDomain => .domainError
  | .unknownOperator => .unknownOperator
  | .unknownUnary => .unknownOperator
  | .invalidNumber => .invalidNumber
  | .noPriorResult => .noPriorResult
  | .emptyInput => .emptyInput
  | .arityNotOne => .arityError
  | .arityTooFew => .arityError
  | .arityNotTwo => .arityError
  | .indexOutOfRange => .runtimePanic

/-- The primitive float64 operations used by src/main.go, abstracted over
the numeric carrier `α`.  `isZero b` models `b == 0`; `lt`/`le` model
`<`/`<=`; `pi`, `eNum`, `c180`, `eps`, `zero` model the literals
`math.Pi`, `math.E`, `180`, `1e-12`, `0`; `parseFloatVal s` is the value
returned by a successful `strconv.ParseFloat(s, 64)` (its success set is
modelled concretely by `parseFloatAccepts` below); `fmtG` and `fmtFixed`
model the `%g` and `%.*f` formatting verbs. -/
structure FloatModel (α : Type) where
  add : α → α → α
  sub : α → α → α
  mul : α → α → α
  div : α → α → α
  pow : α → α → α
  mod : α → α → α
  sinF : α → α
  cosF : α → α
  tanF : α → α
  sqrtF : α → α
  logF : α → α
  absF : α → α
  pi : α
  eNum : α
  c180 : α
  eps : α
  zero : α
  isZero : α → Bool
  lt : α → α → Bool
  le : α → α → Bool
  parseFloatVal : String → α
  fmtG : α → String
  fmtFixed : Nat → α → String

/-- src/main.go `isUnaryOperator`. -/
def isUnaryOperator (op : String) : Bool :=
  op == "sin" || op == "cos" || op == "tan" || op == "sqrt" || op == "log"

/-- src/main.go `toRadians`: `v * math.Pi / 180` when degrees mode is on,
`v` unchanged otherwise. -/
def toRadians (ops : FloatModel α) (v : α) (degrees : Bool) : α :=
  if degrees then ops.div (ops.mul v ops.pi) ops.c180 else v

/-- src/main.go `calculateBinary`: dispatch on the operator string,
with the `b == 0` guards for `/` and `%`. -/
def calculateBinary (ops : FloatModel α) (op : String) (a b : α) : Except CalcErr α :=
  if op = "+" then .ok (ops.add a b)
  else if op = "-" then .ok (ops.sub a b)
  else if op = "*" then .ok (ops.mul a b)
  else if op = "/" then
    if ops.isZero b then .error .divisionByZero else .ok (ops.div a b)
  else if op = "^" then .ok (ops.pow a b)
  else if op = "%" then
    if ops.isZero b then .error .moduloByZero else .ok (ops.mod a b)
  else .error .unknownOperator

/-- src/main.go `calculateUnary`: converts the operand to radians first,
uses the converted value for sin/cos/tan and the raw operand for
sqrt/log, with the domain guards of the Go code. -/
def calculateUnary (ops : FloatModel α) (op : String) (v : α) (degrees : Bool) :
    Except CalcErr α :=
  let rad := toRadians ops v degrees
  if op = "sin" then .ok (ops.sinF rad)
  else if op = "cos" then .ok (ops.cosF rad)
  else if op = "tan" then
    if ops.lt (ops.absF (ops.cosF rad)) ops.eps then .error .tanUndefined
    else .ok (ops.tanF rad)
  else if op = "sqrt" then
    if ops.lt v ops.zero then .error .sqrtNegative else .ok (ops.sqrtF v)
  else if op = "log" then
    if ops.le v ops.zero then .error .logDomain else .ok (ops.logF v)
  else .error .unknownUnary

/-- The `for i := 1; i < len(nums); i++` reduction loop of
src/main.go `calculateMany`, with `result` as the accumulator and the
`return 0, err` short-circuit on the first failing step. -/
def reduceBinary (ops : FloatModel α) (op : String) : α → List α → Except CalcErr α
  | acc, [] => .ok acc
  | acc, b :: rest =>
    match calculateBinary ops op acc b with
    | .error e => .error e
    | .ok r => reduceBinary ops op r rest

/-- src/main.go `calculateMany`: unary operators evaluate `nums[0]`;
binary operators start from `nums[0]` and reduce left to right.
The empty-list case models the Go index-out-of-range panic of `nums[0]`
(unreachable after arity validation). -/
def calculateMany (ops : FloatModel α) (op : String) (nums : List α) (degrees : Bool) :
    Except CalcErr α :=
  if isUnaryOperator op then
    match nums with
    | [] => .error .indexOutOfRange
    | v :: _ => calculateUnary ops op v degrees
  else
    match nums with
    | [] => .error .indexOutOfRange
    | x :: rest => reduceBinary ops op x rest

/-- The spec's description of multi-operand reduction, stated with the
standard left fold: "start with the first operand as the running result,
then repeatedly combine with each subsequent operand using the binary
operator, short-circuiting on first error". -/
def specLeftReduce (ops : FloatModel α) (op : String) : List α → Except CalcErr α
  | [] => .error .indexOutOfRange
  | x :: rest => List.foldlM (calculateBinary ops op) x rest

/-- src/main.go `validateOperandCount`: unary needs exactly one operand,
every binary needs at least two, and `-`, `/`, `%`, `^` need exactly two. -/
def validateOperandCount (op : String) (nums : List α) : Except CalcErr (List α) :=
  if isUnaryOperator op then
    if nums.length ≠ 1 then .error .arityNotOne else .ok nums
  else if nums.length < 2 then .error .arityTooFew
  else if (op = "-" ∨ op = "/" ∨ op = "%" ∨ op = "^") ∧ nums.length ≠ 2 then
    .error .arityNotTwo
  else .ok nums

/-- ASCII lowercase conversion of a whole string, char by char.  This is
the case-insensitivity used inside Go `strconv` (its `special` matching
and `EqualFold`-free byte comparisons lower ASCII letters only), and it
also models `strings.EqualFold(line, "auto")` in `setPrecision`, whose
target folds only with ASCII case pairs.  Defined on the character list
so that it evaluates by kernel reduction. -/
def lowerStr (s : String) : String :=
  ⟨s.data.map Char.toLower⟩

/-- Modelled from Go `strings.ToLower` (Unicode simple case mapping,
rune by rune), restricted to the mappings that can affect equality with the
ASCII tokens this program compares ("ans", "last", "pi", "e"): the ASCII
range plus U+0130 (`İ`, whose simple lowercase is the ASCII `i`).  Every
other Unicode simple lowercase mapping produces a non-ASCII character or
an ASCII character outside those tokens, so on equality with any of the
four tokens this function agrees with the full `strings.ToLower`. -/
def toLowerGo (c : Char) : Char :=
  if c = 'İ' then 'i' else c.toLower

/-- Go `strings.ToLower` of a whole string, via `toLowerGo`. -/
def lowerStrGo (s : String) : String :=
  ⟨s.data.map toLowerGo⟩

/-- The separator predicate of src/main.go `parseNumbersLine`:
`r == ' ' || r == ',' || r == '\t'`. -/
def isSep (c : Char) : Bool :=
  c == ' ' || c == ',' || c == '\t'

/-- Accumulating splitter: models Go `strings.FieldsFunc`, which returns
the maximal runs of non-separator characters and never yields an empty
field. -/
def fieldsAux : List Char → List Char → List String
  | [], acc => if acc.isEmpty then [] else [⟨acc.reverse⟩]
  | c :: rest, acc =>
    if isSep c then
      if acc.isEmpty then fieldsAux rest []
      else ⟨acc.reverse⟩ :: fieldsAux rest []
    else fieldsAux rest (c :: acc)

/-- `strings.FieldsFunc(line, ...)` as called by `parseNumbersLine`. -/
def splitFields (line : String) : List String :=
  fieldsAux line.data []

/-- Hexadecimal digit test used by Go `strconv.readFloat` when scanning a
`0x` mantissa. -/
def isHexCh (c : Char) : Bool :=
  c.isDigit || (decide ('a' ≤ c.toLower) && decide (c.toLower ≤ 'f'))

/-- Modelled from the Go standard library (strconv/atof.go `special`):
the full-string inputs ParseFloat resolves as special values — `inf` and
`infinity` with optional sign, and unsigned `nan`, all case-insensitively. -/
def specialAccepts (s : String) : Bool :=
  let l := lowerStr s
  l == "inf" || l == "+inf" || l == "-inf" ||
  l == "infinity" || l == "+infinity" || l == "-infinity" ||
  l == "nan"

/-- Modelled from Go strconv/atof.go `readFloat`'s mantissa loop: consumes
digits of the given base, underscores, and at most one dot; returns the
unconsumed suffix and whether at least one digit was seen. -/
def mantLoop (hexB : Bool) : List Char → Bool → Bool → List Char × Bool
  | [], _, sawdigits => ([], sawdigits)
  | c :: rest, sawdot, sawdigits =>
    if c = '_' then mantLoop hexB rest sawdot sawdigits
    else if c = '.' then
      if sawdot then (c :: rest, sawdigits) else mantLoop hexB rest true sawdigits
    else if (if hexB then isHexCh c else c.isDigit) then mantLoop hexB rest sawdot true
    else (c :: rest, sawdigits)

/-- Modelled from Go strconv/atof.go `readFloat`'s exponent loop: consumes
decimal digits and underscores. -/
def expDigitsLoop : List Char → List Char
  | [] => []
  | c :: rest => if c.isDigit || c = '_' then expDigitsLoop rest else c :: rest

/-- Modelled from Go strconv/atof.go `readFloat`, after the sign and the
optional `0x` prefix: the remaining characters must form a mantissa with
at least one digit, followed — mandatorily in the hexadecimal case,
optionally in the decimal case — by an exponent (`p` resp. `e`, optional
sign, a leading decimal digit, then digits/underscores), consuming the
whole string. -/
def numBodyAccepts (hexB : Bool) (body : List Char) : Bool :=
  let scanned := mantLoop hexB body false false
  if !scanned.2 then false
  else
    match scanned.1 with
    | [] => !hexB
    | c :: rest2 =>
      if c.toLower = (if hexB then 'p' else 'e') then
        match rest2 with
        | [] => false
        | d :: rest3 =>
          let tail := if d = '+' || d = '-' then rest3 else d :: rest3
          match tail with
          | [] => false
          | x :: _ => if x.isDigit then (expDigitsLoop tail).isEmpty else false
      else false

/-- Modelled from Go strconv/atoi.go `underscoreOK`'s scan loop: `saw`
tracks the class of the previous character (`^` start, `0` digit or base
prefix, `_` underscore, `!` other). -/
def underscoreBody (hexB : Bool) : List Char → Char → Bool
  | [], saw => saw ≠ '_'
  | c :: rest, saw =>
    if c.isDigit || (hexB && decide ('a' ≤ c.toLower) && decide (c.toLower ≤ 'f')) then
      underscoreBody hexB rest '0'
    else if c = '_' then
      if saw ≠ '0' then false else underscoreBody hexB rest '_'
    else if saw = '_' then false
    else underscoreBody hexB rest '!'

/-- Modelled from Go strconv/atoi.go `underscoreOK`: underscores may
appear only between digits, or between a base prefix and a digit. -/
def underscoreOKGo (s : List Char) : Bool :=
  let s1 := match s with
    | c :: rest => if c = '-' || c = '+' then rest else s
    | [] => s
  match s1 with
  | '0' :: b :: rest =>
    if b.toLower == 'b' || b.toLower == 'o' || b.toLower == 'x' then
      underscoreBody (b.toLower == 'x') rest '0'
    else underscoreBody false s1 '^'
  | _ => underscoreBody false s1 '^'

/-- Modelled from Go strconv/atof.go `readFloat` (structure only, the
mandatory full consumption of ParseFloat included): optional sign, then a
decimal or `0x`-prefixed hexadecimal number body.  The `0x` prefix is
recognized only when at least one character follows it, as in the Go
condition `i+2 < len(s)`. -/
def readFloatAccepts (s : List Char) : Bool :=
  let s1 := match s with
    | c :: rest => if c = '+' || c = '-' then rest else s
    | [] => s
  let hexB := match s1 with
    | '0' :: x :: _ :: _ => x.toLower == 'x'
    | _ => false
  numBodyAccepts hexB (if hexB then s1.drop 2 else s1)

/-- Modelled from the Go standard library: the strings `strconv.ParseFloat`
finds syntactically well formed (no `ErrSyntax`) other than the special
values — a fully-consumed number body whose underscores (if any) sit in
legal positions. -/
def parseFloatWellFormed (s : String) : Bool :=
  readFloatAccepts s.data && (!(s.data.contains '_') || underscoreOKGo s.data)

/-- Split a character list at the first occurrence of the (lowercased)
exponent marker, dropping the marker (helper for the exact-value model
of a well-formed ParseFloat token). -/
def splitAtExp (expCh : Char) : List Char → List Char × List Char
  | [] => ([], [])
  | c :: rest =>
    if c.toLower = expCh then ([], rest)
    else
      let p := splitAtExp expCh rest
      (c :: p.1, p.2)

/-- Split a character list at the first dot, dropping the dot. -/
def splitAtDot : List Char → List Char × List Char
  | [] => ([], [])
  | c :: rest =>
    if c = '.' then ([], rest)
    else
      let p := splitAtDot rest
      (c :: p.1, p.2)

/-- Numeric value of a digit run in the given base (`a`–`f` as 10–15). -/
def digitsVal (base : Nat) : List Char → Nat → Nat
  | [], acc => acc
  | c :: rest, acc =>
    digitsVal base rest
      (acc * base + (if c.isDigit then c.toNat - 48 else c.toLower.toNat - 87))

/-- Signed decimal value of an exponent part (underscores dropped). -/
def expVal (l : List Char) : Int :=
  let ls := l.filter (fun c => c ≠ '_')
  match ls with
  | '-' :: rest => -(Int.ofNat (digitsVal 10 rest 0))
  | '+' :: rest => Int.ofNat (digitsVal 10 rest 0)
  | _ => Int.ofNat (digitsVal 10 ls 0)

/-- The float64 round-to-infinity threshold: a correctly rounded
(round-to-nearest, ties-to-even) conversion yields `±Inf` exactly when the
exact magnitude reaches the midpoint between the largest finite float64
`(2^53 - 1) * 2^971` and `2^1024`, that is `2^1024 - 2^970` (stated as a
literal so it evaluates without large exponentiation; the lemma
`maxFloatBound_eq` below checks the identity). -/
def maxFloatBound : Nat := 179769313486231580793728971405303415079934132710037826936173778980444968292764750946649017977587207096330286416692887910946555547851940402630657488671505820681908902000708383676273854845817711531764475730270069855571366959622842914819860834936475292719074168444365510704342711559699508093042880177904174497792

/-- Whether the exact value `m * base ^ e` reaches `maxFloatBound`
(`base` is 10 for a decimal token, 2 for a hexadecimal one; both
comparisons are exact integer comparisons). -/
def overflowAt (base : Nat) (m : Nat) (e : Int) : Bool :=
  if m = 0 then false
  else if 0 ≤ e then decide (maxFloatBound ≤ m * base ^ e.toNat)
  else decide (maxFloatBound * base ^ (-e).toNat ≤ m)

/-- Modelled from the Go standard library: `strconv.ParseFloat(s, 64)`
returns a non-nil `ErrRange` on a syntactically valid token whose exact
value rounds to `±Inf`.  Go's conversion is correctly rounded (fast paths
fall back to the exact decimal slow path), so for a well-formed token this
is precisely: exact magnitude `≥ 2^1024 - 2^970`.  The exact value of a
well-formed token is `digits * 10^(exp - fracDigits)` for a decimal body
and `hexDigits * 2^(exp - 4*fracDigits)` for a hexadecimal one (sign
stripped, underscores dropped); underflow to zero raises no error. -/
def parseFloatOverflows (s : String) : Bool :=
  let body := match s.data with
    | c :: rest => if c = '+' || c = '-' then rest else s.data
    | [] => s.data
  let hexB := match body with
    | '0' :: x :: _ :: _ => x.toLower == 'x'
    | _ => false
  if hexB then
    let p := splitAtExp 'p' (body.drop 2)
    let md := splitAtDot (p.1.filter (fun c => c ≠ '_'))
    overflowAt 2 (digitsVal 16 (md.1 ++ md.2) 0) (expVal p.2 - 4 * md.2.length)
  else
    let p := splitAtExp 'e' body
    let md := splitAtDot (p.1.filter (fun c => c ≠ '_'))
    overflowAt 10 (digitsVal 10 (md.1 ++ md.2) 0) (expVal p.2 - md.2.length)

/-- Modelled from the Go standard library: the exact set of strings on
which `strconv.ParseFloat(s, 64)` returns a nil error — the special
values (infinities and NaN carry no error), or a syntactically
well-formed number token whose exact value does not overflow float64
(overflow yields `ErrRange`, a non-nil error). -/
def parseFloatAccepts (s : String) : Bool :=
  specialAccepts s || (parseFloatWellFormed s && !parseFloatOverflows s)

/-- `strconv.ParseFloat(s, 64)` as used by src/main.go, which treats any
non-nil error — `ErrSyntax` or `ErrRange` alike — as failure
(main.go:239-242): success is decided by the concrete `parseFloatAccepts`;
the numeric value of an accepted string is the carrier-dependent
primitive `parseFloatVal`. -/
def parseFloatGo (ops : FloatModel α) (s : String) : Option α :=
  if parseFloatAccepts s then some (ops.parseFloatVal s) else none

/-- Consume a run of decimal digits (helper for the spec-side literal
grammar below). -/
def decDigits : List Char → List Char
  | [] => []
  | c :: rest => if c.isDigit then decDigits rest else c :: rest

/-- Follows the spec's words, for comparison with the code: a "decimal
floating-point literal" — optional sign, decimal digits with at most one
dot and at least one digit, and an optional decimal exponent. -/
def specDecimalLiteral (s : String) : Bool :=
  let l := match s.data with
    | c :: rest => if c = '+' || c = '-' then rest else s.data
    | [] => []
  let r1 := decDigits l
  let hadInt : Bool := decide (r1.length < l.length)
  let scanned : List Char × Bool := match r1 with
    | '.' :: r => let rr := decDigits r; (rr, decide (rr.length < r.length))
    | _ => (r1, false)
  if !(hadInt || scanned.2) then false
  else
    match scanned.1 with
    | [] => true
    | c :: r3 =>
      if c = 'e' || c = 'E' then
        let r4 := match r3 with
          | d :: r => if d = '+' || d = '-' then r else r3
          | [] => r3
        match r4 with
        | [] => false
        | x :: _ => x.isDigit && (decDigits r4).isEmpty
      else false

/-- The per-token body of the loop in src/main.go `parseNumbersLine`:
lowercase the field with `strings.ToLower` (modelled by `lowerStrGo`),
resolve `ans`/`last` (failing without a prior result), `pi` and `e`, and
otherwise call ParseFloat on the original field. -/
def parseToken (ops : FloatModel α) (field : String) (last : α) (hasLast : Bool) :
    Except CalcErr α :=
  let token := lowerStrGo field
  if token = "ans" ∨ token = "last" then
    if !hasLast then .error .noPriorResult else .ok last
  else if token = "pi" then .ok ops.pi
  else if token = "e" then .ok ops.eNum
  else
    match parseFloatGo ops field with
    | none => .error .invalidNumber
    | some v => .ok v

/-- The field loop of src/main.go `parseNumbersLine`: parse each field in
order, returning the first error. -/
def parseTokens (ops : FloatModel α) (last : α) (hasLast : Bool) :
    List String → Except CalcErr (List α)
  | [] => .ok []
  | f :: rest =>
    match parseToken ops f last hasLast with
    | .error e => .error e
    | .ok v =>
      match parseTokens ops last hasLast rest with
      | .error e => .error e
      | .ok vs => .ok (v :: vs)

/-- src/main.go `parseNumbersLine`: split the line on spaces, commas and
tabs; a line with no fields is the "empty input" error; otherwise parse
every field. -/
def parseNumbersLine (ops : FloatModel α) (line : String) (last : α) (hasLast : Bool) :
    Except CalcErr (List α) :=
  let fields := splitFields line
  if fields.isEmpty then .error .emptyInput
  else parseTokens ops last hasLast fields

/-- Outcome of src/main.go `readNumbers`: `eof` models the reader
signalling end-of-input (`ok == false`, terminating the session), `err`
an input error aborting the round, `ok` the validated operand list. -/
inductive ReadResult (α : Type) where
  | eof
  | err (e : CalcErr)
  | ok (nums : List α)
deriving DecidableEq

/-- src/main.go `readNumbers`' collection loop over the remaining input
lines (each already trimmed by `readLine`): an exhausted input list is
end-of-input; a blank line stops collection and runs arity validation; any
other line is parsed and its values appended. -/
def readNumbersFrom (ops : FloatModel α) (op : String) (last : α) (hasLast : Bool) :
    List String → List α → ReadResult α
  | [], _ => .eof
  | line :: rest, acc =>
    if line = "" then
      match validateOperandCount op acc with
      | .error e => .err e
      | .ok nums => .ok nums
    else
      match parseNumbersLine ops line last hasLast with
      | .error e => .err e
      | .ok vs => readNumbersFrom ops op last hasLast rest (acc ++ vs)

/-- The session state of src/main.go `Calculator` (the `reader` handle,
an external collaborator, is not part of the state). -/
structure CalcState (α : Type) where
  history : List String
  results : List α
  lastResult : α
  hasLast : Bool
  useDegrees : Bool
  precision : Int
deriving DecidableEq

/-- src/main.go `NewCalculator`: empty history and results, zero last
result with the presence flag down, radians mode, precision `-1` (auto). -/
def initState (ops : FloatModel α) : CalcState α :=
  { history := []
    results := []
    lastResult := ops.zero
    hasLast := false
    useDegrees := false
    precision := -1 }

/-- Digit run to a natural number (helper for the Atoi model). -/
def digitsToNat : List Char → Nat → Nat
  | [], acc => acc
  | c :: rest, acc => digitsToNat rest (acc * 10 + (c.toNat - 48))

/-- Modelled from the Go standard library `strconv.Atoi` as called by
`setPrecision`: an optional sign followed by at least one decimal digit
(base fixed at 10, so no underscores and no prefixes).  The 64-bit range
check of Atoi is not modelled; every value it would reject is rejected
just after by the 0–10 bound, leaving the session outcome identical. -/
def atoiGo (s : String) : Option Int :=
  match s.data with
  | [] => none
  | l =>
    let signed : Bool × List Char := match l with
      | '-' :: r => (true, r)
      | '+' :: r => (false, r)
      | _ => (false, l)
    if signed.2.isEmpty || !signed.2.all Char.isDigit then none
    else
      let n : Int := Int.ofNat (digitsToNat signed.2 0)
      some (if signed.1 then -n else n)

/-- src/main.go `setPrecision`, as a function of the line the user typed
(`none` models end-of-input, which returns early): blank or "auto" set
auto (`-1`); a well-formed integer in 0..10 is adopted; anything else is
an error that leaves the current precision in place. -/
def setPrecisionLine (line : Option String) (cur : Int) : Int :=
  match line with
  | none => cur
  | some l =>
    if l = "" ∨ lowerStr l = "auto" then -1
    else
      match atoiGo l with
      | none => cur
      | some v => if v < 0 ∨ 10 < v then cur else v

/-- The command tokens accepted by src/main.go `isCommand` (after the
dispatcher has lowercased the line; `exit` terminates beforehand). -/
inductive Cmd where
  | help
  | histCmd
  | degrees
  | radians
  | exportCmd
  | mode
  | precCmd (line : Option String)
  | stats
  | opsCmd
  | clear
deriving DecidableEq

/-- src/main.go `handleCommand`, restricted to its effect on the session
state: `degrees`/`radians` set the angle mode, `precision` runs
`setPrecision`, `clear` empties history and results and drops the
last-result flag; `help`, `history`, `export`, `mode`, `stats` and `ops`
only print. -/
def handleCommand (st : CalcState α) : Cmd → CalcState α
  | .degrees => { st with useDegrees := true }
  | .radians => { st with useDegrees := false }
  | .precCmd line => { st with precision := setPrecisionLine line st.precision }
  | .clear => { st with history := [], results := [], hasLast := false }
  | _ => st

/-- src/main.go `formatResult`: `%g` when precision is negative (auto),
`%.*f` with the stored digit count otherwise. -/
def formatResultModel (ops : FloatModel α) (prec : Int) (v : α) : String :=
  if prec < 0 then ops.fmtG v else ops.fmtFixed prec.toNat v

/-- src/main.go `formatExpression`: `op(x)` for a unary operator,
`x op y op z ...` for a binary one (all operands rendered with `%g`). -/
def formatExpression (ops : FloatModel α) (nums : List α) (op : String) : String :=
  if isUnaryOperator op then
    op ++ "(" ++ (match nums with | [] => "" | v :: _ => ops.fmtG v) ++ ")"
  else
    match nums with
    | [] => ""
    | x :: rest => rest.foldl (fun b n => b ++ " " ++ op ++ " " ++ ops.fmtG n) (ops.fmtG x)

/-- One iteration of src/main.go `Run` after an operator was read: either
a command, or an evaluation round whose operand lines follow.  The `Run`
loop only ever produces `eval` events whose operator went through
`normalizeOperator`; the theorems below hold for arbitrary operator
strings, which subsumes the reachable ones. -/
inductive Event where
  | cmd (c : Cmd)
  | eval (op : String) (lines : List String)

/-- The collect-validate-evaluate pipeline of one evaluation round of
src/main.go `Run` (lines 55–69): `none` when the round commits nothing
(input error, arity error, calculation error, or end-of-input), otherwise
the operand list and the result. -/
def roundOutcome (ops : FloatModel α) (st : CalcState α) (op : String)
    (lines : List String) : Option (List α × α) :=
  match readNumbersFrom ops op st.lastResult st.hasLast lines [] with
  | .eof => none
  | .err _ => none
  | .ok nums =>
    match calculateMany ops op nums st.useDegrees with
    | .error _ => none
    | .ok r => some (nums, r)

/-- The state effect of one loop iteration of src/main.go `Run`: commands
go to `handleCommand`; an evaluation round commits `lastResult`,
`hasLast`, a history entry and a results entry exactly when it succeeds
(lines 71–76), and leaves the state untouched otherwise. -/
def step (ops : FloatModel α) (st : CalcState α) : Event → CalcState α
  | .cmd c => handleCommand st c
  | .eval op lines =>
    match roundOutcome ops st op lines with
    | none => st
    | some (nums, result) =>
      { st with
        lastResult := result
        hasLast := true
        history := st.history ++
          [formatExpression ops nums op ++ " = " ++ formatResultModel ops st.precision result]
        results := st.results ++ [result] }

/-- Iterated `step`: the session state after a list of loop iterations. -/
def runEvents (ops : FloatModel α) : List Event → CalcState α → CalcState α
  | [], st => st
  | e :: es, st => runEvents ops es (step ops st e)

/-- Trace-level reading of the spec's phrase "at least one evaluation has
succeeded since the last clear": the flag starts at `b`, is cleared by the
`clear` command, and is raised by a successful evaluation round. -/
def succSince (ops : FloatModel α) : CalcState α → Bool → List Event → Bool
  | _, b, [] => b
  | st, b, e :: es =>
    let b2 := match e with
      | .cmd Cmd.clear => false
      | .cmd _ => b
      | .eval op lines => b || (roundOutcome ops st op lines).isSome
    succSince ops (step ops st e) b2 es

/-- A computable instantiation of the primitives over `Int`, used to
evaluate the embedding on concrete inputs.  The transcendental primitives
and the ParseFloat value are stubbed (the structural theorems hold for
every interpretation; only comparisons and ring operations matter on the
examples). -/
def intOps : FloatModel Int where
  add := (· + ·)
  sub := (· - ·)
  mul := (· * ·)
  div := (· / ·)
  pow := fun a _ => a
  mod := (· % ·)
  sinF := fun _ => 0
  cosF := fun _ => 0
  tanF := fun _ => 0
  sqrtF := fun _ => 0
  logF := fun _ => 0
  absF := fun a => a.natAbs
  pi := 3
  eNum := 2
  c180 := 180
  eps := 1
  zero := 0
  isZero := fun b => b == 0
  lt := fun a b => decide (a < b)
  le := fun a b => decide (a ≤ b)
  parseFloatVal := fun _ => 0
  fmtG := fun _ => ""
  fmtFixed := fun _ _ => ""

/-- The real-number instantiation: exact real arithmetic with the genuine
transcendental functions, `math.Pi` as `Real.pi` and `1e-12` as the
rational it denotes. -/
noncomputable def realOps : FloatModel ℝ where
  add := (· + ·)
  sub := (· - ·)
  mul := (· * ·)
  div := (· / ·)
  pow := fun a b => Real.rpow a b
  mod := fun a b => a - b * (a / b)
  sinF := Real.sin
  cosF := Real.cos
  tanF := Real.tan
  sqrtF := Real.sqrt
  logF := Real.log
  absF := fun a => |a|
  pi := Real.pi
  eNum := Real.exp 1
  c180 := 180
  eps := 1e-12
  zero := 0
  isZero := fun b => decide (b = 0)
  lt := fun a b => decide (a < b)
  le := fun a b => decide (a ≤ b)
  parseFloatVal := fun _ => 0
  fmtG := fun _ => ""
  fmtFixed := fun _ _ => ""

lemma maxFloatBound_eq : maxFloatBound = 2 ^ 1024 - 2 ^ 970 := by
  norm_num [maxFloatBound]

lemma reduceBinary_eq_foldlM (ops : FloatModel α) (op : String) :
    ∀ (l : List α) (acc : α),
      reduceBinary ops op acc l = List.foldlM (calculateBinary ops op) acc l := by
  intro l
  induction l with
  | nil => intro acc; rfl
  | cons b rest ih =>
    intro acc
    rw [reduceBinary, List.foldlM]
    cases h : calculateBinary ops op acc b with
    | error e => rfl
    | ok r => exact ih r

/-- Claim C1: for every binary operator in `{+, -, *, /, ^, %}` and every
operand list that passes arity validation (in particular of length at
least 2), `calculateMany` computes the left-to-right reduction: first
operand as initial accumulator, then one `calculateBinary` application
per subsequent operand, stopping at the first error. -/
theorem binary_reduce_is_left_fold (ops : FloatModel α) (op : String)
    (nums : List α) (degrees : Bool)
    (hop : op ∈ (["+", "-", "*", "/", "^", "%"] : List String))
    (hval : validateOperandCount op nums = .ok nums) :
    calculateMany ops op nums degrees = specLeftReduce ops op nums := by
  have hun : isUnaryOperator op = false := by
    simp only [List.mem_cons, List.not_mem_nil, or_false] at hop
    rcases hop with rfl | rfl | rfl | rfl | rfl | rfl <;> rfl
  have hlen : 2 ≤ nums.length := by
    by_contra hlt
    rw [validateOperandCount, hun] at hval
    simp only [Bool.false_eq_true, if_false] at hval
    rw [if_pos (by omega)] at hval
    cases hval
  match nums, hlen with
  | x :: rest, _ =>
    rw [calculateMany, hun]
    simp only [Bool.false_eq_true, if_false, specLeftReduce]
    exact reduceBinary_eq_foldlM ops op rest x

/-- Witness for C1 at a concrete input: `+` over `[1, 2, 3]` passes
validation and the reduction equals the left fold (both evaluate to
`.ok 6` over `intOps`). -/
theorem binary_reduce_is_left_fold_check :
    calculateMany intOps "+" [1, 2, 3] false = specLeftReduce intOps "+" [1, 2, 3] ∧
    calculateMany intOps "+" [1, 2, 3] false = .ok 6 :=
  ⟨binary_reduce_is_left_fold intOps "+" [1, 2, 3] false (by decide) rfl, rfl⟩

/-- Claim C2: evaluation fails exactly on the spec's domain conditions —
`/` and `%` error (with the spec kind DivisionByZero) precisely when the
divisor equals zero, `tan` errors (DomainError) precisely when the
absolute cosine of the radian-converted operand is below the `1e-12`
threshold, `sqrt` errors (DomainError) precisely on a negative operand,
`log` errors (DomainError) precisely on an operand at most zero, and
`+`, `-`, `*`, `^`, `sin`, `cos` always succeed. -/
theorem error_conditions_characterized (ops : FloatModel α) (a b v : α) (deg : Bool) :
    (calculateBinary ops "/" a b =
      if ops.isZero b then .error .divisionByZero else .ok (ops.div a b)) ∧
    (calculateBinary ops "%" a b =
      if ops.isZero b then .error .moduloByZero else .ok (ops.mod a b)) ∧
    errKind .divisionByZero = .divisionByZero ∧
    errKind .moduloByZero = .divisionByZero ∧
    (calculateUnary ops "tan" v deg =
      if ops.lt (ops.absF (ops.cosF (toRadians ops v deg))) ops.eps then
        .error .tanUndefined
      else .ok (ops.tanF (toRadians ops v deg))) ∧
    errKind .tanUndefined = .domainError ∧
    (calculateUnary ops "sqrt" v deg =
      if ops.lt v ops.zero then .error .sqrtNegative else .ok (ops.sqrtF v)) ∧
    errKind .sqrtNegative = .domainError ∧
    (calculateUnary ops "log" v deg =
      if ops.le v ops.zero then .error .logDomain else .ok (ops.logF v)) ∧
    errKind .logDomain = .domainError ∧
    calculateBinary ops "+" a b = .ok (ops.add a b) ∧
    calculateBinary ops "-" a b = .ok (ops.sub a b) ∧
    calculateBinary ops "*" a b = .ok (ops.mul a b) ∧
    calculateBinary ops "^" a b = .ok (ops.pow a b) ∧
    calculateUnary ops "sin" v deg = .ok (ops.sinF (toRadians ops v deg)) ∧
    calculateUnary ops "cos" v deg = .ok (ops.cosF (toRadians ops v deg)) :=
  ⟨rfl, rfl, rfl, rfl, rfl, rfl, rfl, rfl, rfl, rfl, rfl, rfl, rfl, rfl, rfl, rfl⟩

/-- Claim C4: in DEGREES mode the trigonometric unary operators receive
`v * π / 180` while `sqrt` and `log` receive `v` unchanged (their results
do not depend on the angle mode at all); in RADIANS mode every unary
operator receives `v` unchanged; and over the real instantiation,
`sin` on `[90]` in DEGREES mode yields exactly `1`. -/
theorem unary_angle_mode_application (ops : FloatModel α) (v : α) :
    toRadians ops v true = ops.div (ops.mul v ops.pi) ops.c180 ∧
    toRadians ops v false = v ∧
    calculateUnary ops "sin" v true = .ok (ops.sinF (ops.div (ops.mul v ops.pi) ops.c180)) ∧
    calculateUnary ops "cos" v true = .ok (ops.cosF (ops.div (ops.mul v ops.pi) ops.c180)) ∧
    (calculateUnary ops "tan" v true =
      if ops.lt (ops.absF (ops.cosF (ops.div (ops.mul v ops.pi) ops.c180))) ops.eps then
        .error .tanUndefined
      else .ok (ops.tanF (ops.div (ops.mul v ops.pi) ops.c180))) ∧
    calculateUnary ops "sqrt" v true = calculateUnary ops "sqrt" v false ∧
    calculateUnary ops "log" v true = calculateUnary ops "log" v false ∧
    calculateUnary ops "sin" v false = .ok (ops.sinF v) ∧
    calculateUnary ops "cos" v false = .ok (ops.cosF v) ∧
    (calculateUnary ops "tan" v false =
      if ops.lt (ops.absF (ops.cosF v)) ops.eps then .error .tanUndefined
      else .ok (ops.tanF v)) ∧
    (calculateUnary ops "sqrt" v false =
      if ops.lt v ops.zero then .error .sqrtNegative else .ok (ops.sqrtF v)) ∧
    (calculateUnary ops "log" v false =
      if ops.le v ops.zero then .error .logDomain else .ok (ops.logF v)) ∧
    calculateUnary realOps "sin" 90 true = .ok 1 := by
  refine ⟨rfl, rfl, rfl, rfl, rfl, rfl, rfl, rfl, rfl, rfl, rfl, rfl, ?_⟩
  have h0 : calculateUnary realOps "sin" (90 : ℝ) true =
      .ok (Real.sin (90 * Real.pi / 180)) := rfl
  rw [h0, show (90 : ℝ) * Real.pi / 180 = Real.pi / 2 by ring, Real.sin_pi_div_two]

lemma validate_cases (op : String) (nums : List α) :
    validateOperandCount op nums = .ok nums ∨
    validateOperandCount op nums = .error .arityNotOne ∨
    validateOperandCount op nums = .error .arityTooFew ∨
    validateOperandCount op nums = .error .arityNotTwo := by
  rw [validateOperandCount]
  split
  · split
    · right; left; rfl
    · left; rfl
  · split
    · right; right; left; rfl
    · split
      · right; right; right; rfl
      · left; rfl

/-- Claim C5: arity validation accepts precisely the operand counts of the
spec — exactly one operand for each unary operator, exactly two for `-`,
`/`, `%`, `^`, at least two for `+` and `*` — and every rejection is an
ArityError. -/
theorem arity_validation_exact (nums : List α) :
    (validateOperandCount "sin" nums = .ok nums ↔ nums.length = 1) ∧
    (validateOperandCount "cos" nums = .ok nums ↔ nums.length = 1) ∧
    (validateOperandCount "tan" nums = .ok nums ↔ nums.length = 1) ∧
    (validateOperandCount "sqrt" nums = .ok nums ↔ nums.length = 1) ∧
    (validateOperandCount "log" nums = .ok nums ↔ nums.length = 1) ∧
    (validateOperandCount "-" nums = .ok nums ↔ nums.length = 2) ∧
    (validateOperandCount "/" nums = .ok nums ↔ nums.length = 2) ∧
    (validateOperandCount "%" nums = .ok nums ↔ nums.length = 2) ∧
    (validateOperandCount "^" nums = .ok nums ↔ nums.length = 2) ∧
    (validateOperandCount "+" nums = .ok nums ↔ 2 ≤ nums.length) ∧
    (validateOperandCount "*" nums = .ok nums ↔ 2 ≤ nums.length) ∧
    (∀ op : String, validateOperandCount op nums = .ok nums ∨
      ∃ e, validateOperandCount op nums = .error e ∧ errKind e = .arityError) := by
  have key1 : ∀ op : String, isUnaryOperator op = true →
      (validateOperandCount op nums = .ok nums ↔ nums.length = 1) := by
    intro op hun
    rw [validateOperandCount, if_pos hun]
    constructor
    · intro h
      by_contra hne
      rw [if_pos hne] at h
      cases h
    · intro h1
      rw [if_neg (not_not_intro h1)]
  have key2 : ∀ op : String, isUnaryOperator op = false →
      (op = "-" ∨ op = "/" ∨ op = "%" ∨ op = "^") →
      (validateOperandCount op nums = .ok nums ↔ nums.length = 2) := by
    intro op hun hop
    rw [validateOperandCount, if_neg (by rw [hun]; exact Bool.false_ne_true)]
    constructor
    · intro h
      by_contra hne
      rcases Nat.lt_or_ge nums.length 2 with hlt | hge
      · rw [if_pos hlt] at h
        cases h
      · rw [if_neg (Nat.not_lt.mpr hge), if_pos ⟨hop, hne⟩] at h
        cases h
    · intro h2
      rw [if_neg (by omega), if_neg (fun hc => hc.2 h2)]
  have key3 : ∀ op : String, isUnaryOperator op = false →
      ¬(op = "-" ∨ op = "/" ∨ op = "%" ∨ op = "^") →
      (validateOperandCount op nums = .ok nums ↔ 2 ≤ nums.length) := by
    intro op hun hop
    rw [validateOperandCount, if_neg (by rw [hun]; exact Bool.false_ne_true)]
    constructor
    · intro h
      by_contra hlt
      rw [if_pos (Nat.not_le.mp hlt)] at h
      cases h
    · intro h2
      rw [if_neg (Nat.not_lt.mpr h2), if_neg (fun hc => hop hc.1)]
  refine ⟨key1 "sin" rfl, key1 "cos" rfl, key1 "tan" rfl, key1 "sqrt" rfl, key1 "log" rfl,
    key2 "-" rfl (by decide), key2 "/" rfl (by decide), key2 "%" rfl (by decide),
    key2 "^" rfl (by decide), key3 "+" rfl (by decide), key3 "*" rfl (by decide), ?_⟩
  intro op
  rcases validate_cases op nums with h | h | h | h
  · exact Or.inl h
  · exact Or.inr ⟨_, h, rfl⟩
  · exact Or.inr ⟨_, h, rfl⟩
  · exact Or.inr ⟨_, h, rfl⟩

/-- Claim C8: `clear` empties history and results and drops the
last-result presence flag, and changes nothing else — angle mode,
precision (and the stale last-result value) all keep their prior values. -/
theorem clear_resets_only_memory (st : CalcState α) :
    (handleCommand st Cmd.clear).history = [] ∧
    (handleCommand st Cmd.clear).results = [] ∧
    (handleCommand st Cmd.clear).hasLast = false ∧
    (handleCommand st Cmd.clear).useDegrees = st.useDegrees ∧
    (handleCommand st Cmd.clear).precision = st.precision ∧
    (handleCommand st Cmd.clear).lastResult = st.lastResult :=
  ⟨rfl, rfl, rfl, rfl, rfl, rfl⟩

/-- Claim C3: a round that fails — an input error during operand
collection and parsing (number-parse failure, empty-input failure, or
arity failure, all surfacing as `ReadResult.err`) or an evaluation error —
leaves the whole session state (history, results, last result and its
flag, angle mode, precision) exactly as it was; nothing is partially
committed. -/
theorem failed_round_preserves_state (ops : FloatModel α) (st : CalcState α)
    (op : String) (lines : List String)
    (hfail :
      (∃ e, readNumbersFrom ops op st.lastResult st.hasLast lines [] = .err e) ∨
      (∃ nums e, readNumbersFrom ops op st.lastResult st.hasLast lines [] = .ok nums ∧
        calculateMany ops op nums st.useDegrees = .error e)) :
    step ops st (.eval op lines) = st := by
  have hnone : roundOutcome ops st op lines = none := by
    rcases hfail with ⟨e, he⟩ | ⟨nums, e, hok, herr⟩
    · simp only [roundOutcome, he]
    · simp only [roundOutcome, hok, herr]
  simp only [step, hnone]

/-- Witness for C3: from the initial state, a round for `/` whose operand
lines are "1 0" then blank reaches evaluation and fails with division by
zero; the state after the round is exactly the initial state. -/
theorem failed_round_preserves_state_check :
    step intOps (initState intOps) (.eval "/" ["1 0", ""]) = initState intOps :=
  failed_round_preserves_state intOps (initState intOps) "/" ["1 0", ""]
    (Or.inr ⟨[0, 0], .divisionByZero, rfl, rfl⟩)

lemma map_toLowerGo_eq (l : List Char) :
    ∀ m : List Char, l.map Char.toLower = m → 'İ' ∉ m → l.map toLowerGo = m := by
  induction l with
  | nil =>
    intro m h _
    simpa using h
  | cons c rest ih =>
    intro m h hm
    cases m with
    | nil => simp at h
    | cons t ts =>
      simp only [List.map_cons, List.cons.injEq] at h ⊢
      have hc : c ≠ 'İ' := by
        intro hcc
        apply hm
        rw [← h.1, hcc]
        exact List.mem_cons_self _ _
      exact ⟨by rw [toLowerGo, if_neg hc]; exact h.1,
        ih ts h.2 (fun hmem => hm (List.mem_cons_of_mem _ hmem))⟩

lemma lowerStr_imp_go (f t : String) (h : lowerStr f = t) (ht : 'İ' ∉ t.data) :
    lowerStrGo f = t := by
  have hd : f.data.map Char.toLower = t.data := congrArg String.data h
  show (⟨f.data.map toLowerGo⟩ : String) = t
  rw [map_toLowerGo_eq f.data t.data hd ht]

/-- Claim C6: per-token numeric parsing — a token whose lowercase form is
`ans` or `last` fails with NoPriorResult when no last result exists and
yields exactly the stored last result otherwise; lowercase `pi` yields the
π constant and lowercase `e` yields Euler's number, in both cases
regardless of the last-result flag.  The parser is a pure function of the
token and the `(last, hasLast)` context: the session state does not occur
in its type, so parsing cannot mutate it. -/
theorem special_token_parsing (ops : FloatModel α) (field : String) (last : α) :
    ((lowerStr field = "ans" ∨ lowerStr field = "last") →
      parseToken ops field last false = .error .noPriorResult ∧
      parseToken ops field last true = .ok last) ∧
    (lowerStr field = "pi" →
      ∀ hasLast, parseToken ops field last hasLast = .ok ops.pi) ∧
    (lowerStr field = "e" →
      ∀ hasLast, parseToken ops field last hasLast = .ok ops.eNum) := by
  refine ⟨fun h => ?_, fun h hasLast => ?_, fun h hasLast => ?_⟩
  · have hg : lowerStrGo field = "ans" ∨ lowerStrGo field = "last" :=
      h.imp (fun ha => lowerStr_imp_go field "ans" ha (by decide))
        (fun ha => lowerStr_imp_go field "last" ha (by decide))
    constructor
    · rw [parseToken, if_pos hg]
      rfl
    · rw [parseToken, if_pos hg]
      rfl
  · have hg : lowerStrGo field = "pi" := lowerStr_imp_go field "pi" h (by decide)
    have hne : ¬(lowerStrGo field = "ans" ∨ lowerStrGo field = "last") := by
      rw [hg]
      decide
    rw [parseToken, if_neg hne, if_pos hg]
  · have hg : lowerStrGo field = "e" := lowerStr_imp_go field "e" h (by decide)
    have hne : ¬(lowerStrGo field = "ans" ∨ lowerStrGo field = "last") := by
      rw [hg]
      decide
    have hpi : lowerStrGo field ≠ "pi" := by
      rw [hg]
      decide
    rw [parseToken, if_neg hne, if_neg hpi, if_pos hg]

/-- Witness for C6 at concrete tokens: "ANS" (case-insensitive alias)
fails without a prior result and returns the stored result 7 with one;
"PI" and "E" return the constants. -/
theorem special_token_parsing_check :
    parseToken intOps "ANS" 7 false = .error .noPriorResult ∧
    parseToken intOps "Last" 7 true = .ok 7 ∧
    parseToken intOps "PI" 7 false = .ok intOps.pi ∧
    parseToken intOps "E" 7 true = .ok intOps.eNum :=
  ⟨((special_token_parsing intOps "ANS" 7).1 (Or.inl (by decide))).1,
   ((special_token_parsing intOps "Last" 7).1 (Or.inr (by decide))).2,
   (special_token_parsing intOps "PI" 7).2.1 (by decide) false,
   (special_token_parsing intOps "E" 7).2.2 (by decide) true⟩

/-- Claim C10: during operand collection a line that is non-empty but
splits into no fields (for example a line of commas only) is not a
terminator — it raises the "empty input" parse error and aborts the
round — whereas a genuinely blank line ends collection normally and hands
the accumulated operands to arity validation. -/
theorem separator_only_line_errors (ops : FloatModel α) (op : String) (last : α)
    (hasLast : Bool) (line : String) (rest : List String) (acc : List α)
    (hne : line ≠ "") (hnofields : splitFields line = []) :
    readNumbersFrom ops op last hasLast (line :: rest) acc = .err .emptyInput ∧
    readNumbersFrom ops op last hasLast ("" :: rest) acc =
      (match validateOperandCount op acc with
       | .error e => .err e
       | .ok nums => .ok nums) := by
  constructor
  · rw [readNumbersFrom, if_neg hne, parseNumbersLine]
    simp only [hnofields, List.isEmpty_nil, if_true]
  · rw [readNumbersFrom, if_pos rfl]

/-- Witness for C10: the line ",,," is non-empty yet has no fields, so it
aborts the round with the empty-input error, while a blank first line
terminates collection immediately (here with no operands, so validation
reports the arity error). -/
theorem separator_only_line_errors_check :
    readNumbersFrom intOps "+" 0 false [",,,"] [] = .err .emptyInput ∧
    readNumbersFrom intOps "+" 0 false ["", "5 5"] [] = .err .arityTooFew := by
  have h := separator_only_line_errors intOps "+" 0 false ",,," ["5 5"] []
    (by decide) (by decide)
  exact ⟨(separator_only_line_errors intOps "+" 0 false ",,," [] []
    (by decide) (by decide)).1, h.2⟩

lemma step_preserves (ops : FloatModel α) :
    ∀ (events : List Event) (st : CalcState α),
      st.history.length = st.results.length →
      (runEvents ops events st).history.length = (runEvents ops events st).results.length ∧
      (runEvents ops events st).hasLast = succSince ops st st.hasLast events := by
  intro events
  induction events with
  | nil => intro st h; exact ⟨h, rfl⟩
  | cons e es ih =>
    intro st h
    have hstep : (step ops st e).history.length = (step ops st e).results.length ∧
        (step ops st e).hasLast = (match e with
          | .cmd Cmd.clear => false
          | .cmd _ => st.hasLast
          | .eval op lines => st.hasLast || (roundOutcome ops st op lines).isSome) := by
      cases e with
      | cmd c => cases c <;> simp [step, handleCommand, h]
      | eval op lines =>
        cases houtcome : roundOutcome ops st op lines with
        | none => simp [step, houtcome, h]
        | some p => cases p with
          | mk nums r => simp [step, houtcome, h]
    have hrec := ih (step ops st e) hstep.1
    refine ⟨by rw [runEvents]; exact hrec.1, ?_⟩
    rw [runEvents]
    simp only [succSince]
    rw [← hstep.2]
    exact hrec.2

/-- Claim C7: at every session state reachable from the initial state by
a sequence of loop iterations (commands and evaluation rounds), the
history and results lists have equal length, and the last-result presence
flag is set exactly when some evaluation round has succeeded since the
most recent `clear` (or since start-up when no `clear` occurred) — the
trace predicate `succSince` starts false, is reset by `clear`, and is
raised by each successful round. -/
theorem session_invariants_hold (ops : FloatModel α) (events : List Event) :
    (runEvents ops events (initState ops)).history.length =
      (runEvents ops events (initState ops)).results.length ∧
    (runEvents ops events (initState ops)).hasLast =
      succSince ops (initState ops) false events :=
  step_preserves ops events (initState ops) rfl

/-- Claim C9 fails on the code as stated: the token "inf" is not a
decimal floating-point literal and matches none of the special tokens,
yet `strconv.ParseFloat` resolves it to an infinity with a nil error, so
the program parses it successfully instead of failing with
InvalidNumber. -/
theorem parse_accepts_nonliteral_inf :
    specDecimalLiteral "inf" = false ∧
    lowerStrGo "inf" ≠ "ans" ∧ lowerStrGo "inf" ≠ "last" ∧
    lowerStrGo "inf" ≠ "pi" ∧ lowerStrGo "inf" ≠ "e" ∧
    parseToken intOps "inf" 0 false = .ok 0 :=
  ⟨rfl, by decide, by decide, by decide, by decide, rfl⟩

/-- Claim C9 (amended): for every token that does not case-insensitively
match ans/last/pi/e (case per Go `strings.ToLower`), parsing succeeds
exactly when `strconv.ParseFloat` returns a nil error on the token
(`parseFloatAccepts`: a decimal or hexadecimal floating-point literal,
optionally signed, with legally placed underscores, whose exact value
does not overflow float64 — overflow is `ErrRange`, an error to the
program — or the case-insensitive specials inf/infinity, optionally
signed, and nan), and fails with InvalidNumber on every other input. -/
theorem parse_matches_go_grammar (ops : FloatModel α) (field : String) (last : α)
    (hasLast : Bool)
    (h1 : lowerStrGo field ≠ "ans") (h2 : lowerStrGo field ≠ "last")
    (h3 : lowerStrGo field ≠ "pi") (h4 : lowerStrGo field ≠ "e") :
    parseToken ops field last hasLast =
      if parseFloatAccepts field then .ok (ops.parseFloatVal field)
      else .error .invalidNumber := by
  rw [parseToken, if_neg (fun h => h.elim h1 h2), if_neg h3, if_neg h4]
  by_cases hp : parseFloatAccepts field = true
  · rw [parseFloatGo, if_pos hp, if_pos hp]
  · rw [parseFloatGo, if_neg hp, if_neg hp]

set_option exponentiation.threshold 512 in
/-- Witness for the amended C9: "12x" is rejected as a syntax error and
"1e400" — well formed but overflowing float64 — as a range error, both
parsing to InvalidNumber; "3.5e2" is accepted and parses to the
ParseFloat value. -/
theorem parse_matches_go_grammar_check :
    parseToken intOps "12x" 0 false = .error .invalidNumber ∧
    parseToken intOps "1e400" 0 false = .error .invalidNumber ∧
    parseFloatWellFormed "1e400" = true ∧
    parseToken intOps "3.5e2" 0 true = .ok (intOps.parseFloatVal "3.5e2") := by
  refine ⟨?_, ?_, rfl, ?_⟩
  · rw [parse_matches_go_grammar intOps "12x" 0 false
      (by decide) (by decide) (by decide) (by decide)]
    rfl
  · rw [parse_matches_go_grammar intOps "1e400" 0 false
      (by decide) (by decide) (by decide) (by decide)]
    rfl
  · rw [parse_matches_go_grammar intOps "3.5e2" 0 true
      (by decide) (by decide) (by decide) (by decide)]
    rfl
